import Mathlib

/-!
# teleproto — verification of the protocol engine against its specification

Shallow embedding of the core of the `teleproto` repository:

* the CRC32 engine and the TL-schema parser
  (`teleproto_generator/crc32.ts`, `teleproto_generator/parser.ts`);
* the IGE block-cipher chaining layer (`teleproto/crypto/IGE.ts`) and the
  crypto construction shims (`createCipher`/`createDecipher`);
* the update-synchronization engine (`catchUp`, `_processDifference`,
  `_handleUpdate`, `_dispatchUpdate`).

JavaScript `Buffer`s are modelled as `List Nat` with every element `< 256`;
32-bit integer arithmetic is carried out on `Nat` with explicit masking.
Regular-expression scans from the source are translated as deterministic
left-to-right scanners with greedy (maximal-munch) sub-matches, which agrees
with the JavaScript engine on the schema-line shapes the parser is defined
for; the `\s` class is modelled by the space character, the only whitespace
that survives the line splitting and trimming done by `parseTl`.
-/

/-! ## CRC32 engine (`crc32.ts`) -/

/-- One step of the table-entry computation:
`c = c & 1 ? 0xedb88320 ^ (c >>> 1) : c >>> 1`. -/
def crcTableStep (c : Nat) : Nat :=
  if c &&& 1 ≠ 0 then Nat.xor 0xedb88320 (c >>> 1) else c >>> 1

/-- Entry `n` of the 256-entry CRC lookup table: eight `crcTableStep`
iterations starting from `n` (`makeCrcTable`). -/
def crcTableEntry (n : Nat) : Nat :=
  crcTableStep^[8] n

/-- `crc32` over a byte sequence: init `0xFFFFFFFF`
(`crc = -1` reinterpreted as unsigned), per-byte
`crc = table[(crc ^ byte) & 0xff] ^ (crc >>> 8)`, final XOR with
`0xFFFFFFFF` (`(crc ^ -1) >>> 0`). -/
def crc32Bytes (bytes : List Nat) : Nat :=
  let crc := bytes.foldl
    (fun crc b => Nat.xor (crcTableEntry ((Nat.xor crc b) &&& 0xff)) (crc >>> 8))
    0xFFFFFFFF
  Nat.xor crc 0xFFFFFFFF

/-- UTF-8 encoding of one character (what `Buffer.from(s, "utf8")` does
per code point). -/
def utf8EncodeCharBytes (c : Char) : List Nat :=
  let n := c.toNat
  if n < 0x80 then [n]
  else if n < 0x800 then
    [0xC0 ||| (n >>> 6), 0x80 ||| (n &&& 0x3F)]
  else if n < 0x10000 then
    [0xE0 ||| (n >>> 12), 0x80 ||| ((n >>> 6) &&& 0x3F), 0x80 ||| (n &&& 0x3F)]
  else
    [0xF0 ||| (n >>> 18), 0x80 ||| ((n >>> 12) &&& 0x3F),
     0x80 ||| ((n >>> 6) &&& 0x3F), 0x80 ||| (n &&& 0x3F)]

/-- UTF-8 bytes of a string. -/
def utf8Bytes (s : String) : List Nat :=
  s.data.flatMap utf8EncodeCharBytes

/-- `crc32` of a string's UTF-8 bytes (`crc32(Buffer.from(s, "utf8"))`). -/
def crc32OfString (s : String) : Nat :=
  crc32Bytes (utf8Bytes s)

/-! ## TL-schema parser (`parser.ts`)

Character classes of the regular expressions used by `fromLine`. -/

/-- `\w` = `[A-Za-z0-9_]`. -/
def isWordChar (c : Char) : Bool :=
  c.isAlpha || c.isDigit || c = '_'

/-- The characters of a definition name: `[\w.]`. -/
def isNameChar (c : Char) : Bool :=
  isWordChar c || c = '.'

/-- `[0-9a-fA-F]`. -/
def isHexDigitChar (c : Char) : Bool :=
  c.isDigit || (decide (97 ≤ c.toNat) && decide (c.toNat ≤ 102))
    || (decide (65 ≤ c.toNat) && decide (c.toNat ≤ 70))

/-- The opening curly bracket character. -/
def lbraceChar : Char := Char.ofNat 123

/-- The closing curly bracket character. -/
def rbraceChar : Char := Char.ofNat 125

/-- The characters of an argument type: `[\w\d<>#.?!]`. -/
def isArgTypeChar (c : Char) : Bool :=
  isWordChar c || c = '<' || c = '>' || c = '#' || c = '.' || c = '?' || c = '!'

/-- The characters of a result type: `[\w\d<>#.?]`. -/
def isResultChar (c : Char) : Bool :=
  isWordChar c || c = '<' || c = '>' || c = '#' || c = '.' || c = '?'

/-- The characters of a flag-gated type: `[\w<>.]`. -/
def isFlagTypeChar (c : Char) : Bool :=
  isWordChar c || c = '<' || c = '>' || c = '.'

/-- Value of a hexadecimal digit character. -/
def hexDigitVal (c : Char) : Nat :=
  if c.isDigit then c.toNat - 48
  else if decide (97 ≤ c.toNat) then c.toNat - 87
  else c.toNat - 55

/-- `Number.parseInt(s, 16)`: value of the leading hexadecimal digit run,
`none` when there is none (`NaN`). -/
def parseHexLeading (s : String) : Option Nat :=
  let ds := s.data.takeWhile isHexDigitChar
  if ds.isEmpty then none
  else some (ds.foldl (fun acc c => acc * 16 + hexDigitVal c) 0)

/-- Value of a decimal digit run (`Number(...)` on the digits captured by
`(\d+)`). -/
def natOfDigits (ds : List Char) : Nat :=
  ds.foldl (fun acc c => acc * 10 + (c.toNat - 48)) 0

/-- Try to match one token of the argument regex
`({)?(\w+):([\w\d<>#.?!]+)}?` at the head of the character list,
returning the optional-brace capture, the two groups, and the remainder. -/
def tryArgToken (cs : List Char) : Option (Option Unit × String × String × List Char) :=
  let (brace, cs1) :=
    if cs.head? = some lbraceChar then ((some () : Option Unit), cs.tail)
    else (none, cs)
  let nm := cs1.takeWhile isWordChar
  if nm.isEmpty then none
  else
    match cs1.dropWhile isWordChar with
    | ':' :: cs3 =>
      let ty := cs3.takeWhile isArgTypeChar
      if ty.isEmpty then none
      else
        let cs4 := cs3.dropWhile isArgTypeChar
        let cs5 := if cs4.head? = some rbraceChar then cs4.tail else cs4
        some (brace, String.mk nm, String.mk ty, cs5)
    | _ => none

/-- The global scan `findAll(/({)?(\w+):([\w\d<>#.?!]+)}?/, line)`:
left-to-right, non-overlapping, advancing one character past positions
where no match starts. -/
def findAllArgsAux : Nat → List Char → List (Option Unit × String × String)
  | 0, _ => []
  | _, [] => []
  | fuel + 1, c :: cs =>
    match tryArgToken (c :: cs) with
    | some (b, n, t, rest) => (b, n, t) :: findAllArgsAux fuel rest
    | none => findAllArgsAux fuel cs

/-- All argument matches in a line. -/
def findAllArgs (line : String) : List (Option Unit × String × String) :=
  findAllArgsAux line.data.length line.data

/-- The `(?:\s{?\w+:[\w\d<>#.?!]+}?)*` section of the main definition
regex: a sequence of space-led argument tokens consuming the whole input. -/
def matchArgsSection : Nat → List Char → Bool
  | _, [] => true
  | 0, _ => false
  | fuel + 1, c :: cs =>
    if c = ' ' then
      match tryArgToken cs with
      | some (_, _, _, rest) => matchArgsSection fuel rest
      | none => false
    else false

/-- The main definition regex
`([\w.]+)(?:#([0-9a-fA-F]+))?(?:\s{?\w+:[\w\d<>#.?!]+}?)*\s=\s([\w\d<>#.?]+);$`:
returns the name, the optional explicit hex id, and the result type. -/
def matchMainLine (line : String) : Option (String × Option String × String) :=
  match line.data.reverse with
  | ';' :: rcs =>
    let rres := rcs.takeWhile isResultChar
    if rres.isEmpty then none
    else
      match rcs.dropWhile isResultChar with
      | ' ' :: '=' :: ' ' :: rpre =>
        let pre := rpre.reverse
        let nm := pre.takeWhile isNameChar
        if nm.isEmpty then none
        else
          match pre.dropWhile isNameChar with
          | '#' :: cs2 =>
            let hx := cs2.takeWhile isHexDigitChar
            if hx.isEmpty then none
            else
              let rest := cs2.dropWhile isHexDigitChar
              if matchArgsSection rest.length rest then
                some (String.mk nm, some (String.mk hx), String.mk rres.reverse)
              else none
          | rest =>
            if matchArgsSection rest.length rest then
              some (String.mk nm, none, String.mk rres.reverse)
            else none
      | _ => none
  | _ => none

/-- First `some` produced by `f` along a list. -/
def firstSome {α β : Type} (f : α → Option β) : List α → Option β
  | [] => none
  | a :: as =>
    match f a with
    | some b => some b
    | none => firstSome f as

/-- Continuation of the flag regex after the `flags(?:\d+)?` group:
`.` (any character), `(\d+)`, `\?`, `([\w<>.]+)`. -/
def tryFlagCont (cs : List Char) : Option (Nat × String) :=
  match cs with
  | [] => none
  | _ :: cs1 =>
    let ds := cs1.takeWhile Char.isDigit
    if ds.isEmpty then none
    else
      match cs1.dropWhile Char.isDigit with
      | '?' :: cs2 =>
        let ty := cs2.takeWhile isFlagTypeChar
        if ty.isEmpty then none
        else some (natOfDigits ds, String.mk ty)
      | _ => none

/-- Try the flag regex `(flags(?:\d+)?).(\d+)\?([\w<>.]+)` at the head of
the list. The optional digit run after `flags` is greedy with backtracking:
digit-run lengths are tried longest first. Note the unescaped `.`, which
matches any character. -/
def tryFlagAt (cs : List Char) : Option (String × Nat × String) :=
  match cs with
  | 'f' :: 'l' :: 'a' :: 'g' :: 's' :: cs1 =>
    let ds := cs1.takeWhile Char.isDigit
    let rest := cs1.dropWhile Char.isDigit
    firstSome
      (fun k =>
        (tryFlagCont (ds.drop k ++ rest)).map fun r =>
          (String.mk ('f' :: 'l' :: 'a' :: 'g' :: 's' :: ds.take k), r.1, r.2))
      ((List.range (ds.length + 1)).reverse)
  | _ => none

/-- Unanchored search for the flag regex, left to right. -/
def flagSearchAux : Nat → List Char → Option (String × Nat × String)
  | 0, _ => none
  | _, [] => none
  | fuel + 1, c :: cs =>
    match tryFlagAt (c :: cs) with
    | some r => some r
    | none => flagSearchAux fuel cs

/-- `type.match(/(flags(?:\d+)?).(\d+)\?([\w<>.]+)/)`. -/
def flagMatchIn (s : String) : Option (String × Nat × String) :=
  flagSearchAux s.data.length s.data

/-- Try the vector regex `[Vv]ector<([\w\d.]+)>` at the head of the list. -/
def tryVectorAt (cs : List Char) : Option String :=
  match cs with
  | v :: 'e' :: 'c' :: 't' :: 'o' :: 'r' :: '<' :: cs1 =>
    if v = 'V' || v = 'v' then
      let ty := cs1.takeWhile isNameChar
      if ty.isEmpty then none
      else
        match cs1.dropWhile isNameChar with
        | '>' :: _ => some (String.mk ty)
        | _ => none
    else none
  | _ => none

/-- Unanchored search for the vector regex, left to right. -/
def vectorSearchAux : Nat → List Char → Option String
  | 0, _ => none
  | _, [] => none
  | fuel + 1, c :: cs =>
    match tryVectorAt (c :: cs) with
    | some r => some r
    | none => vectorSearchAux fuel cs

/-- `type.match(/[Vv]ector<([\w\d.]+)>/)`. -/
def vectorMatchIn (s : String) : Option String :=
  vectorSearchAux s.data.length s.data

/-- Last `.`-separated segment of a type name
(`config.type.split(".").pop() || ""`). -/
def lastDotSegment (s : String) : String :=
  (s.splitOn ".").getLastD ""

/-- `/^[a-z]$/.test(plain.charAt(0))`. -/
def headIsLowerAsciiLetter (s : String) : Bool :=
  match s.data with
  | c :: _ => c.isLower
  | [] => false

/-- One field's encoding rule (`ArgConfig` in `parser.ts`). -/
structure ArgConfig where
  isVector : Bool
  isFlag : Bool
  skipConstructorId : Bool
  flagName : Option String
  flagIndex : Int
  flagIndicator : Bool
  type : Option String
  useVectorId : Option Bool
deriving DecidableEq, Repr

/-- `buildArgConfig(name, argType)`. The first statement renames a declared
name `"self"` to `"is_self"`, but the renamed value is dead: the returned
configuration does not contain the name and the caller keys the argument map
by the original declared name. -/
def buildArgConfig (name argType : String) : ArgConfig :=
  let _renamed := if name = "self" then "is_self" else name
  let config : ArgConfig :=
    { isVector := false, isFlag := false, skipConstructorId := false,
      flagName := none, flagIndex := -1, flagIndicator := true,
      type := none, useVectorId := none }
  let config :=
    if argType ≠ "#" then
      let ty0 := String.mk (argType.data.dropWhile (· = '!'))
      let (isFlag, flagName, flagIndex, ty1) :=
        match flagMatchIn ty0 with
        | some (fn, idx, fty) => (true, some fn, (idx : Int), fty)
        | none => (false, none, (-1 : Int), ty0)
      let (isVector, useVectorId, ty2) :=
        match vectorMatchIn ty1 with
        | some vty => (true, some (ty1.data.head? == some 'V'), vty)
        | none => (false, (none : Option Bool), ty1)
      let skipCid := headIsLowerAsciiLetter (lastDotSegment ty2)
      { config with
          flagIndicator := false, isFlag := isFlag, flagName := flagName,
          flagIndex := flagIndex, isVector := isVector,
          useVectorId := useVectorId, skipConstructorId := skipCid,
          type := some ty2 }
    else config
  if config.type = some "future_salt" then { config with type := some "FutureSalt" }
  else config

/-- One parsed schema entry (`TlDefinition` in `parser.ts`); the argument
mapping is an insertion-ordered association list, as JavaScript object keys
are. -/
structure TlDefinition where
  name : String
  constructorId : Nat
  argsConfig : List (String × ArgConfig)
  subclassOfId : Nat
  result : String
  isFunction : Bool
  tlNamespace : Option String
deriving DecidableEq, Repr

/-- `obj[key] = value` on an insertion-ordered association list: replace in
place if the key exists, else append. -/
def setKey : List (String × ArgConfig) → String → ArgConfig → List (String × ArgConfig)
  | [], k, v => [(k, v)]
  | (k', v') :: rest, k, v =>
    if k' = k then (k, v) :: rest else (k', v') :: setKey rest k v

/-- `Array.prototype.join(" ")`. -/
def joinWithSpace : List String → String
  | [] => ""
  | [s] => s
  | s :: rest => s ++ " " ++ joinWithSpace rest

/-- `([-_][a-z])` replaced by its uppercased letter
(`variableSnakeToCamelCase`). -/
def vCamelAux : List Char → List Char
  | [] => []
  | [c] => [c]
  | c1 :: c2 :: rest =>
    if (c1 = '-' || c1 = '_') && c2.isLower then c2.toUpper :: vCamelAux rest
    else c1 :: vCamelAux (c2 :: rest)

/-- `variableSnakeToCamelCase` from `parser.ts`. -/
def variableSnakeToCamelCase (s : String) : String :=
  String.mk (vCamelAux s.data)

/-- `(?:^|_)([a-z])` replaced by the uppercased letter; the boolean flag is
true only at index 0 (`^`). -/
def sCamelAux : Bool → List Char → List Char
  | _, [] => []
  | _, '_' :: d :: rest' =>
    if d.isLower then d.toUpper :: sCamelAux false rest'
    else '_' :: sCamelAux false (d :: rest')
  | _, ['_'] => ['_']
  | atStart, c :: rest =>
    if atStart && c.isLower then c.toUpper :: sCamelAux false rest
    else c :: sCamelAux false rest

/-- `snakeToCamelCase` from `parser.ts`: the regex replacement followed by
removal of all remaining underscores. -/
def snakeToCamelCase (s : String) : String :=
  String.mk ((sCamelAux true s.data).filter (fun c => c ≠ '_'))

/-- `.replace(/(:|\?)bytes /g, "$1string ")`. -/
def replaceBytesAlias : List Char → List Char
  | ':' :: 'b' :: 'y' :: 't' :: 'e' :: 's' :: ' ' :: cs =>
    ':' :: 's' :: 't' :: 'r' :: 'i' :: 'n' :: 'g' :: ' ' :: replaceBytesAlias cs
  | '?' :: 'b' :: 'y' :: 't' :: 'e' :: 's' :: ' ' :: cs =>
    '?' :: 's' :: 't' :: 'r' :: 'i' :: 'n' :: 'g' :: ' ' :: replaceBytesAlias cs
  | c :: cs => c :: replaceBytesAlias cs
  | [] => []

/-- Try `\s(\w+):flags(\d+)?\.(\d+)\?true` — the pattern of
`.replace(/ \w+:flags(\d+)?\.\d+\?true/g, "")` — at the head of the list,
returning the remainder after the match. -/
def matchFlagsTrueAt (cs : List Char) : Option (List Char) :=
  match cs with
  | ' ' :: cs1 =>
    let w := cs1.takeWhile isWordChar
    if w.isEmpty then none
    else
      match cs1.dropWhile isWordChar with
      | ':' :: 'f' :: 'l' :: 'a' :: 'g' :: 's' :: cs2 =>
        match cs2.dropWhile Char.isDigit with
        | '.' :: cs3 =>
          let ds2 := cs3.takeWhile Char.isDigit
          if ds2.isEmpty then none
          else
            match cs3.dropWhile Char.isDigit with
            | '?' :: 't' :: 'r' :: 'u' :: 'e' :: cs4 => some cs4
            | _ => none
        | _ => none
      | _ => none
  | _ => none

/-- The global replace removing presence-only flag fields. -/
def removeFlagsTrue : Nat → List Char → List Char
  | 0, cs => cs
  | _, [] => []
  | fuel + 1, c :: cs =>
    match matchFlagsTrueAt (c :: cs) with
    | some rest => removeFlagsTrue fuel rest
    | none => c :: removeFlagsTrue fuel cs

/-- The four textual normalizations applied to the canonical representation
string before hashing, in source order. -/
def normalizeRepr (s : String) : String :=
  let p1 := replaceBytesAlias s.data
  let p2 := p1.map (fun c => if c = '<' then ' ' else c)
  let p3 := p2.filter (fun c => ¬(c = '>' || c = lbraceChar || c = rbraceChar))
  String.mk (removeFlagsTrue p3.length p3)

/-- One step of the argument-map construction loop of `fromLine`: a match
with the brace group captured is skipped, otherwise the configuration is
stored under the camel-cased declared name. -/
def argsConfigStep (acc : List (String × ArgConfig))
    (e : Option Unit × String × String) : List (String × ArgConfig) :=
  match e with
  | (none, n, t) => setKey acc (variableSnakeToCamelCase n) (buildArgConfig n t)
  | (some _, _, _) => acc

/-- The body of `fromLine` after the main regex has matched, taking the
captured groups: lines 128-168 of `parser.ts`. The argument map is built
only after the constructor id has been computed. -/
def fromLineCore (line : String) (nm : String) (hexId : Option String)
    (result : String) (isFunction : Bool) : TlDefinition :=
  let argsMatch := findAllArgs line
  let cid0 : Option Nat := hexId.bind parseHexLeading
  let argsConfig0 : List (String × ArgConfig) := []
  let constructorId : Nat :=
    if cid0 = none ∨ cid0 = some 0 then
      let keys := argsConfig0.map Prod.fst
      let args := if keys.length ≠ 0 then " " ++ joinWithSpace keys else ""
      crc32OfString (normalizeRepr (nm ++ args ++ " = " ++ result))
    else cid0.getD 0
  let argsConfig := argsMatch.foldl argsConfigStep argsConfig0
  let (ns, nm1) :=
    if nm.data.contains '.' then
      (some (String.mk (nm.data.takeWhile (fun c => c ≠ '.'))),
       String.mk ((nm.data.dropWhile (fun c => c ≠ '.')).tail))
    else (none, nm)
  { name := snakeToCamelCase nm1,
    constructorId := constructorId,
    argsConfig := argsConfig,
    subclassOfId := crc32OfString result,
    result := result,
    isFunction := isFunction,
    tlNamespace := ns }

/-- `fromLine(line, isFunction)`: `none` models the thrown
`Cannot parse TLObject` error. -/
def fromLine (line : String) (isFunction : Bool) : Option TlDefinition :=
  (matchMainLine line).map fun m => fromLineCore line m.1 m.2.1 m.2.2 isFunction

/-- Constructor ids of the structural core types dropped from the parsed
output (`CORE_TYPES`). -/
def CORE_TYPES : List Nat :=
  [0xbc799737, 0x997275b5, 0x3fedd339, 0xc4b9f9bb, 0x56730bcc]

/-- Constructor ids of the auth-key exchange types whose `string` fields are
retyped to `bytes` (`AUTH_KEY_TYPES`). -/
def AUTH_KEY_TYPES : List Nat :=
  [0x05162463, 0x83c95aec, 0xa9f55f95, 0x3c6a84d4, 0x56fddf88, 0xd0e8075c,
   0xb5890dba, 0x6643b654, 0xd712e4be, 0xf5045f1f, 0x3072cfa1]

/-- Split on the newline character (`content.split("\n")`). -/
def splitNewlines : List Char → List (List Char)
  | [] => [[]]
  | '\n' :: cs => [] :: splitNewlines cs
  | c :: cs =>
    match splitNewlines cs with
    | l :: ls => (c :: l) :: ls
    | [] => [[c]]

/-- JavaScript whitespace as trimmed by `String.prototype.trim` on the
schema text: space, tab, line feed, carriage return, vertical tab, form
feed. -/
def isJsSpace (c : Char) : Bool :=
  c = ' ' || c.toNat = 9 || c.toNat = 10 || c.toNat = 13 || c.toNat = 11
    || c.toNat = 12

/-- `line.trim()`. -/
def jsTrim (cs : List Char) : List Char :=
  ((cs.dropWhile isJsSpace).reverse.dropWhile isJsSpace).reverse

/-- Text before the first `//` (`line.indexOf("//")` + `slice`). -/
def stripCommentAux : List Char → List Char
  | '/' :: '/' :: _ => []
  | c :: cs => c :: stripCommentAux cs
  | [] => []

/-- Strip a `//` comment from a line. -/
def stripComment (line : String) : String :=
  String.mk (stripCommentAux line.data)

/-- Try the section regex `---(\w+)---` at the head of the list. -/
def trySectionAt : List Char → Option String
  | '-' :: '-' :: '-' :: cs =>
    let w := cs.takeWhile isWordChar
    if w.isEmpty then none
    else
      match cs.dropWhile isWordChar with
      | '-' :: '-' :: '-' :: _ => some (String.mk w)
      | _ => none
  | _ => none

/-- Unanchored search for the section regex. -/
def sectionSearchAux : Nat → List Char → Option String
  | 0, _ => none
  | _, [] => none
  | fuel + 1, c :: cs =>
    match trySectionAt (c :: cs) with
    | some r => some r
    | none => sectionSearchAux fuel cs

/-- `line.match(/---(\w+)---/)`. -/
def sectionNameIn (line : String) : Option String :=
  sectionSearchAux line.data.length line.data

/-- Substring test on character lists. -/
def strContainsAux (pat : List Char) : List Char → Bool
  | [] => pat.isEmpty
  | c :: cs => pat.isPrefixOf (c :: cs) || strContainsAux pat cs

/-- `s.includes(sub)` (JavaScript `String.prototype.includes`). -/
def strContains (s sub : String) : Bool :=
  strContainsAux sub.data s.data

/-- The auth-key post-processing pass of `parseTl`: every `string`-typed
field of a definition whose id is in `AUTH_KEY_TYPES` is retyped to
`bytes`. -/
def patchAuthKey (d : TlDefinition) : TlDefinition :=
  if d.constructorId ∈ AUTH_KEY_TYPES then
    { d with argsConfig := d.argsConfig.map fun e =>
        (e.1, if e.2.type = some "string" then { e.2 with type := some "bytes" } else e.2) }
  else d

/-- `parseTl(content)`: line loop with comment stripping, trimming, section
toggling, the `CORE_TYPES` filter, the tolerated `vector#1cb5c415` parse
failure, and the auth-key patch pass. `none` models a propagated
`Cannot parse TLObject` error. -/
def parseTl (content : String) : Option (List TlDefinition) :=
  let step := fun (acc : Option (Bool × List TlDefinition)) (rawLine : String) =>
    match acc with
    | none => none
    | some (isFunction, parsed) =>
      let line := String.mk (jsTrim (stripComment rawLine).data)
      if line = "" then some (isFunction, parsed)
      else
        match sectionNameIn line with
        | some sec => some (sec = "functions", parsed)
        | none =>
          match fromLine line isFunction with
          | some d =>
            if d.constructorId ∈ CORE_TYPES then some (isFunction, parsed)
            else some (isFunction, parsed ++ [d])
          | none =>
            if strContains line "vector#1cb5c415" then some (isFunction, parsed)
            else none
  match ((splitNewlines content.data).map String.mk).foldl step (some (false, [])) with
  | none => none
  | some (_, parsed) => some (parsed.map patchAuthKey)

/-! ## IGE block-cipher chaining layer (`IGE.ts`)

Buffers are byte lists. The raw AES-256-ECB single-block primitive comes
from `node:crypto` and is external to the repository; it is abstracted as a
pair of block maps. -/

/-- Modelled from the spec: the "raw 256-bit-key block cipher in 'no
chaining, no padding' mode" underlying IGE (`crypto.createCipheriv(
"aes-256-ecb", key, null)` with `setAutoPadding(false)`), external to the
repository, abstracted as its single-block encrypt/decrypt maps (the key is
baked into the maps). -/
structure BlockCipher where
  encryptBlock : List Nat → List Nat
  decryptBlock : List Nat → List Nat

/-- `xorBuffers(a, b)`: result length is `a.length`; a missing `b[i]` reads
as `undefined`, which `ToInt32` turns into `0`; the store into the result
`Buffer` keeps the low byte. -/
def xorBuffers : List Nat → List Nat → List Nat
  | [], _ => []
  | a :: as, b :: bs => (Nat.xor a b) % 256 :: xorBuffers as bs
  | a :: as, [] => (Nat.xor a 0) % 256 :: xorBuffers as []

/-- Split a buffer into successive 16-byte chunks; the fuel bounds the
number of chunks and any fuel of at least the buffer length is enough. -/
def chunks16Aux : Nat → List Nat → List (List Nat)
  | 0, _ => []
  | _, [] => []
  | fuel + 1, c :: cs => ((c :: cs).take 16) :: chunks16Aux fuel ((c :: cs).drop 16)

/-- Split a buffer into successive 16-byte chunks
(`plainText.slice(i, i + blockSize)` for `i = 0, 16, 32, ...`). -/
def chunks16 (l : List Nat) : List (List Nat) :=
  chunks16Aux l.length l

/-- The encryption loop of `encryptIge`, block-listwise: each iteration
XORs the plaintext block with the previous cipher block, applies the raw
encrypt primitive, XORs with the previous plain block, and shifts the
chaining pair. -/
def encryptIgeBlocks (C : BlockCipher) :
    List (List Nat) → List Nat → List Nat → List (List Nat)
  | [], _, _ => []
  | pb :: rest, prevCipher, prevPlain =>
    let xored := xorBuffers pb prevCipher
    let encrypted := C.encryptBlock xored
    let cipherBlock := xorBuffers encrypted prevPlain
    cipherBlock :: encryptIgeBlocks C rest cipherBlock pb

/-- The decryption loop of `decryptIge`, block-listwise, with the swapped
roles of the chaining pair. -/
def decryptIgeBlocks (C : BlockCipher) :
    List (List Nat) → List Nat → List Nat → List (List Nat)
  | [], _, _ => []
  | cb :: rest, prevCipher, prevPlain =>
    let xored := xorBuffers cb prevPlain
    let decrypted := C.decryptBlock xored
    let plainBlock := xorBuffers decrypted prevCipher
    plainBlock :: decryptIgeBlocks C rest cb plainBlock

/-- `encryptIge(plainText)`: pad a misaligned plaintext with
`Helpers.generateRandomBytes(16 - len % 16)` — randomness is external, so
the generator is a parameter `rnd` — then run the IGE chain from the two IV
halves; each call starts the chain fresh from the IV. -/
def encryptIge (C : BlockCipher) (iv : List Nat) (rnd : Nat → List Nat)
    (plainText : List Nat) : List Nat :=
  let blockSize := 16
  let padding := plainText.length % blockSize
  let padded :=
    if padding ≠ 0 then plainText ++ rnd (blockSize - padding) else plainText
  let iv1 := iv.take blockSize
  let iv2 := (iv.drop blockSize).take blockSize
  (encryptIgeBlocks C (chunks16 padded) iv1 iv2).flatten

/-- `decryptIge(cipherText)`: `none` models the thrown
`Cipher text must be multiple of 16 bytes` framing error. -/
def decryptIge (C : BlockCipher) (iv : List Nat) (cipherText : List Nat) :
    Option (List Nat) :=
  if cipherText.length % 16 ≠ 0 then none
  else
    let iv1 := iv.take 16
    let iv2 := (iv.drop 16).take 16
    some ((decryptIgeBlocks C (chunks16 cipherText) iv1 iv2).flatten)

/-! ## Crypto construction shims (`createCipher` / `createDecipher`) -/

/-- An opaque cipher object handed back by node's
`createCipheriv`/`createDecipheriv`. -/
structure NodeCipherHandle where
  handleId : Nat
deriving DecidableEq

/-- Modelled from the spec: node's `createCipheriv` and `createDecipheriv`
(`node:crypto`) are external to the repository. Each call either returns a
cipher object or throws — node rejects unknown algorithm names and
key/IV lengths that do not fit the algorithm — so a run of the library is
abstracted as a pair of maps into `Option`. -/
structure NodeCryptoFactory where
  createCipheriv : String → List Nat → List Nat → Option NodeCipherHandle
  createDecipheriv : String → List Nat → List Nat → Option NodeCipherHandle

/-- The `CTR` wrapper class of the crypto shim: it holds the two node
cipher objects its constructor obtained. -/
structure CryptoShimCTR where
  cipher : NodeCipherHandle
  decipher : NodeCipherHandle
deriving DecidableEq

/-- `new CTR(key, iv, algorithm)`: the constructor calls
`nodeCreateCipheriv(algorithm, key, iv)` and then
`nodeCreateDecipheriv(algorithm, key, iv)`; a throw from either call
propagates out of the constructor (`none`). -/
def newCTR (F : NodeCryptoFactory) (key iv : List Nat) (algorithm : String) :
    Option CryptoShimCTR :=
  match F.createCipheriv algorithm key iv with
  | none => none
  | some c =>
    match F.createDecipheriv algorithm key iv with
    | none => none
    | some d => some { cipher := c, decipher := d }

/-- `createCipher(algorithm, key, iv)`: throws up front iff the algorithm
string contains the substring `"ECB"`, otherwise returns
`new CTR(key, iv, algorithm)` with node's errors propagated. -/
def createCipher (F : NodeCryptoFactory) (algorithm : String)
    (key iv : List Nat) : Option CryptoShimCTR :=
  if strContains algorithm "ECB" then none
  else newCTR F key iv algorithm

/-- `createDecipher(algorithm, key, iv)`: same body as `createCipher` —
the explicit refusal guard, then `new CTR(key, iv, algorithm)`. -/
def createDecipher (F : NodeCryptoFactory) (algorithm : String)
    (key iv : List Nat) : Option CryptoShimCTR :=
  if strContains algorithm "ECB" then none
  else newCTR F key iv algorithm

/-! ## Update synchronization engine (`catchUp`, `_processDifference`,
`_handleUpdate`, `_dispatchUpdate`)

The engine's observable actions — entity-cache/session bookkeeping, update
fan-out, the too-long warning — are modelled as an effect trace in program
order. -/

/-- `client._updateState`: {pts, qts, date, seq}. -/
structure UpdateState where
  pts : Int
  qts : Int
  date : Int
  seq : Int
deriving DecidableEq, Repr

/-- A user/chat snapshot; `peerId = none` models `utils.getPeerId`
throwing on an invalid entity (the `catch` skips it). -/
structure Entity where
  peerId : Option Int
deriving DecidableEq, Repr

/-- An opaque decoded update object. -/
structure UpdateObj where
  tag : Int
deriving DecidableEq, Repr

/-- An entry of `diff.newMessages`: only `Api.Message` and
`Api.MessageService` are wrapped and fanned out. -/
inductive DiffMessage
  | message (id : Int)
  | messageService (id : Int)
  | messageEmpty (id : Int)
deriving DecidableEq, Repr

/-- `Api.updates.TypeDifference`, with the fields `catchUp` reads. -/
inductive TypeDifference
  | differenceEmpty (date seq : Int)
  | difference (newMessages : List DiffMessage) (otherUpdates : List UpdateObj)
      (users chats : List Entity) (state : UpdateState)
  | differenceSlice (newMessages : List DiffMessage) (otherUpdates : List UpdateObj)
      (users chats : List Entity) (intermediateState : UpdateState)
  | differenceTooLong (pts : Int)
deriving DecidableEq, Repr

/-- `Map.prototype.set`: overwrite in place or append. -/
def mapSet : List (Int × Entity) → Int → Entity → List (Int × Entity)
  | [], k, v => [(k, v)]
  | (k', v') :: rest, k, v =>
    if k' = k then (k, v) :: rest else (k', v') :: mapSet rest k v

/-- `entities.set(utils.getPeerId(e), e)` over a list, skipping entities on
which `getPeerId` throws. -/
def addEntities (m : List (Int × Entity)) (es : List Entity) : List (Int × Entity) :=
  es.foldl
    (fun m e =>
      match e.peerId with
      | some k => mapSet m k e
      | none => m)
    m

/-- The update object handed to `_processUpdate` during catch-up: either a
synthetic `Api.UpdateNewMessage` wrapper or a raw update. -/
inductive FanUpdate
  | newMessageWrap (m : DiffMessage) (pts ptsCount : Int)
  | plain (u : UpdateObj)
deriving DecidableEq, Repr

/-- Observable actions of the catch-up path, in program order. -/
inductive SyncEffect
  | entityCacheAdd (diff : TypeDifference)
  | sessionProcessEntities (diff : TypeDifference)
  | dispatched (upd : FanUpdate) (others : Option (List UpdateObj))
      (entities : List (Int × Entity))
  | warnedTooLong
deriving DecidableEq, Repr

/-- `_processDifference(client, diff)` for a `Difference` or
`DifferenceSlice` with the given components: build the entities map from
users then chats, add the diff to the entity cache and the session, wrap
each real new message as `UpdateNewMessage{pts: 0, ptsCount: 0}` and fan it
out with `others = null`, then fan out each other update with
`others = diff.otherUpdates`. -/
def _processDifference (diff : TypeDifference) (newMessages : List DiffMessage)
    (otherUpdates : List UpdateObj) (users chats : List Entity) : List SyncEffect :=
  let entities := addEntities (addEntities [] users) chats
  [SyncEffect.entityCacheAdd diff, SyncEffect.sessionProcessEntities diff]
    ++ (newMessages.filterMap fun m =>
        match m with
        | .message _ =>
          some (SyncEffect.dispatched (.newMessageWrap m 0 0) none entities)
        | .messageService _ =>
          some (SyncEffect.dispatched (.newMessageWrap m 0 0) none entities)
        | .messageEmpty _ => none)
    ++ otherUpdates.map fun u =>
        SyncEffect.dispatched (.plain u) (some otherUpdates) entities

/-- The `while (fetching)` loop of `catchUp`, driven by the queue of
`GetDifference` replies. Returns the final state, the effect trace, and the
replies left unconsumed when the loop stops (an exhausted queue models a
failed `invoke`, caught by `catchUp`'s try/catch with the state kept). -/
def catchUpLoop : UpdateState → List TypeDifference →
    UpdateState × List SyncEffect × List TypeDifference
  | st, [] => (st, [], [])
  | st, d :: rest =>
    match d with
    | .differenceEmpty date seq =>
      ({ st with date := date, seq := seq }, [], rest)
    | .difference nm ou us ch s =>
      (s, _processDifference (.difference nm ou us ch s) nm ou us ch, rest)
    | .differenceSlice nm ou us ch is =>
      let effs := _processDifference (.differenceSlice nm ou us ch is) nm ou us ch
      let (st', effs', rem) := catchUpLoop is rest
      (st', effs ++ effs', rem)
    | .differenceTooLong pts =>
      ({ st with pts := pts }, [.warnedTooLong], rest)

/-- `catchUp(client)`: with no current state, one `GetState` reply
initializes it and the function returns; otherwise the difference loop
runs. -/
def catchUp (st : Option UpdateState) (getStateReply : UpdateState)
    (diffs : List TypeDifference) :
    Option UpdateState × List SyncEffect × List TypeDifference :=
  match st with
  | none => (some getStateReply, [], diffs)
  | some s =>
    let r := catchUpLoop s diffs
    (some r.1, r.2.1, r.2.2)

/-- The argument of `_handleUpdate`: a raw decoded object or a bare integer
connection-state signal. -/
inductive UpdLike
  | updatesBatch (updates : List UpdateObj) (users chats : List Entity)
  | updatesCombined (updates : List UpdateObj) (users chats : List Entity)
  | updateShort (u : UpdateObj)
  | other (u : UpdateObj)
deriving DecidableEq, Repr

/-- `Api.TypeUpdate | number`. -/
inductive HandleInput
  | num (n : Int)
  | upd (o : UpdLike)
deriving DecidableEq, Repr

/-- What `_processUpdate` receives as its `update` argument on the live
path. -/
inductive DispatchPayload
  | rawNum (n : Int)
  | obj (u : UpdateObj)
deriving DecidableEq, Repr

/-- Observable actions of `_handleUpdate`, in program order. -/
inductive HandleEffect
  | dispatchedConnectionState (n : Int)
  | entityCacheAdd (u : HandleInput)
  | sessionProcessEntities (u : HandleInput)
  | dispatched (u : DispatchPayload) (others : Option (List UpdateObj))
      (entities : List (Int × Entity))
deriving DecidableEq, Repr

/-- The regular path of `_handleUpdate` after the connection-state shortcut
has not fired: entity-cache and session bookkeeping, then the
`Updates`/`UpdatesCombined`/`UpdateShort`/fallback dispatch. -/
def _handleUpdateRest (inp : HandleInput) : List HandleEffect :=
  [HandleEffect.entityCacheAdd inp, HandleEffect.sessionProcessEntities inp]
    ++ match inp with
       | .upd (.updatesBatch us users chats) =>
         let entities := addEntities (addEntities [] users) chats
         us.map fun u => HandleEffect.dispatched (.obj u) (some us) entities
       | .upd (.updatesCombined us users chats) =>
         let entities := addEntities (addEntities [] users) chats
         us.map fun u => HandleEffect.dispatched (.obj u) (some us) entities
       | .upd (.updateShort u) => [HandleEffect.dispatched (.obj u) none []]
       | .upd (.other u) => [HandleEffect.dispatched (.obj u) none []]
       | .num n => [HandleEffect.dispatched (.rawNum n) none []]

/-- `_handleUpdate(client, update)`: a bare integer in `{-1, 0, 1}` is
wrapped into a synthetic `UpdateConnectionState` and dispatched directly;
everything else — including integers outside that set — falls through to
the regular path. -/
def _handleUpdate (inp : HandleInput) : List HandleEffect :=
  match inp with
  | .num n =>
    if n = -1 ∨ n = 0 ∨ n = 1 then [HandleEffect.dispatchedConnectionState n]
    else _handleUpdateRest inp
  | .upd _ => _handleUpdateRest inp

/-! ## Handler dispatch (`_dispatchUpdate`) -/

/-- Outcome of a user callback: normal return, the `StopPropagation`
signal, or any other thrown error. -/
inductive CallbackResult
  | ok
  | stopPropagation
  | err
deriving DecidableEq, Repr

/-- One registered `(builder, callback)` pair, abstracted by the outcomes
of the operations the dispatch loop performs on it. `buildResult`:
`none` = `builder.build` threw, `some none` = it returned `undefined`,
`some (some ())` = it produced an event. `filterResult`: `none` = the
filter threw. -/
structure EventPair where
  tag : Nat
  builderPresent : Bool
  callbackPresent : Bool
  resolveOk : Bool
  buildResult : Option (Option Unit)
  filterResult : Option Bool
  callbackResult : CallbackResult
deriving DecidableEq, Repr

/-- Observable actions of one dispatch round, in program order. -/
inductive DispatchEffect
  | resolveErrorLogged (tag : Nat)
  | buildErrorLogged (tag : Nat)
  | filterErrorLogged (tag : Nat)
  | callbackInvoked (tag : Nat)
  | errorHandled (tag : Nat)
  | handlerErrorLogged (tag : Nat)
deriving DecidableEq, Repr

/-- `_dispatchUpdate(client, args)`: iterate the registered pairs in
registration order; a `StopPropagation` thrown by a callback breaks the
loop; any other callback error is routed to the optional global error
handler (when set), logged, and iteration continues. -/
def _dispatchUpdate (hasErrorHandler : Bool) (updatePresent : Bool) :
    List EventPair → List DispatchEffect
  | [] => []
  | p :: rest =>
    if !(p.builderPresent && p.callbackPresent) then
      _dispatchUpdate hasErrorHandler updatePresent rest
    else if !p.resolveOk then
      DispatchEffect.resolveErrorLogged p.tag
        :: _dispatchUpdate hasErrorHandler updatePresent rest
    else if !updatePresent then
      _dispatchUpdate hasErrorHandler updatePresent rest
    else
      match p.buildResult with
      | none =>
        DispatchEffect.buildErrorLogged p.tag
          :: _dispatchUpdate hasErrorHandler updatePresent rest
      | some none => _dispatchUpdate hasErrorHandler updatePresent rest
      | some (some _) =>
        match p.filterResult with
        | none =>
          DispatchEffect.filterErrorLogged p.tag
            :: _dispatchUpdate hasErrorHandler updatePresent rest
        | some false => _dispatchUpdate hasErrorHandler updatePresent rest
        | some true =>
          DispatchEffect.callbackInvoked p.tag
            :: match p.callbackResult with
               | .ok => _dispatchUpdate hasErrorHandler updatePresent rest
               | .stopPropagation => []
               | .err =>
                 (if hasErrorHandler then [DispatchEffect.errorHandled p.tag] else [])
                   ++ DispatchEffect.handlerErrorLogged p.tag
                   :: _dispatchUpdate hasErrorHandler updatePresent rest

/-- Whether the dispatch loop reaches the pair's callback (present,
resolved, an event built, filter passed), for a present update. -/
def willRun (p : EventPair) : Bool :=
  p.builderPresent && p.callbackPresent && p.resolveOk
    && (match p.buildResult with
        | some (some _) => true
        | _ => false)
    && (p.filterResult == some true)

/-- Whether the pair's callback is invoked and throws `StopPropagation`,
breaking the round. -/
def stopsRound (p : EventPair) : Bool :=
  willRun p && (p.callbackResult == CallbackResult.stopPropagation)

/-- The effects one non-breaking pair contributes to a round with a present
update. -/
def pairEffects (hasErrorHandler : Bool) (p : EventPair) : List DispatchEffect :=
  if !(p.builderPresent && p.callbackPresent) then []
  else if !p.resolveOk then [DispatchEffect.resolveErrorLogged p.tag]
  else
    match p.buildResult with
    | none => [DispatchEffect.buildErrorLogged p.tag]
    | some none => []
    | some (some _) =>
      match p.filterResult with
      | none => [DispatchEffect.filterErrorLogged p.tag]
      | some false => []
      | some true =>
        DispatchEffect.callbackInvoked p.tag
          :: match p.callbackResult with
             | .ok => []
             | .stopPropagation => []
             | .err =>
               (if hasErrorHandler then [DispatchEffect.errorHandled p.tag] else [])
                 ++ [DispatchEffect.handlerErrorLogged p.tag]

/-! ## Concrete instances used by witnesses and counterexamples -/

/-- The identity block cipher: a legitimate instance of the abstract raw
block primitive (its decrypt inverts its encrypt). -/
def idBlockCipher : BlockCipher :=
  { encryptBlock := fun b => b, decryptBlock := fun b => b }

/-- A deterministic stand-in for the random padding generator. -/
def zeroRnd : Nat → List Nat := fun k => List.replicate k 0

/-- A concrete 32-byte IV. -/
def sampleIv : List Nat := List.replicate 32 1

/-- A concrete catch-up start state. -/
def cexState : UpdateState := { pts := 1, qts := 2, date := 3, seq := 4 }

/-- A concrete first difference slice. -/
def cexSliceA : TypeDifference :=
  .differenceSlice [.message 1] [{ tag := 10 }] [{ peerId := some 7 }] []
    { pts := 5, qts := 5, date := 5, seq := 5 }

/-- A concrete second difference slice. -/
def cexSliceB : TypeDifference :=
  .differenceSlice [] [{ tag := 11 }] [] []
    { pts := 6, qts := 6, date := 6, seq := 6 }

/-- A concrete terminal full difference with embedded new state. -/
def cexFull : TypeDifference :=
  .difference [.message 3] [{ tag := 12 }] [] []
    { pts := 9, qts := 9, date := 9, seq := 9 }

/-- A node-library run that accepts every construction request; used to
separate the entry points' own refusal guard from node's rejections. -/
def alwaysAcceptNode : NodeCryptoFactory :=
  { createCipheriv := fun _ _ _ => some { handleId := 0 },
    createDecipheriv := fun _ _ _ => some { handleId := 1 } }

/-- Modelled from the spec: one run of node's
`createCipheriv`/`createDecipheriv` consistent with `node:crypto`'s
documented behavior at the inputs it is consulted on here — the lowercase
OpenSSL cipher name `aes-256-ecb` with a 32-byte key and an empty IV is
accepted (`IGE.ts` constructs exactly this cipher through `node:crypto`);
every other request is rejected in this run. -/
def nodeLowercaseEcbRun : NodeCryptoFactory :=
  { createCipheriv := fun alg key iv =>
      if alg = "aes-256-ecb" ∧ key.length = 32 ∧ iv.length = 0 then
        some { handleId := 0 }
      else none,
    createDecipheriv := fun alg key iv =>
      if alg = "aes-256-ecb" ∧ key.length = 32 ∧ iv.length = 0 then
        some { handleId := 1 }
      else none }

/-- A concrete 32-byte key. -/
def sampleKey : List Nat := List.replicate 32 0

/-- A concrete 16-byte CTR counter block. -/
def sampleCtrIv : List Nat := List.replicate 16 0

/-- A registered pair whose callback returns normally. -/
def dispatchPairOk : EventPair :=
  { tag := 0, builderPresent := true, callbackPresent := true, resolveOk := true,
    buildResult := some (some ()), filterResult := some true,
    callbackResult := .ok }

/-- A registered pair whose callback throws `StopPropagation`. -/
def dispatchPairStop : EventPair :=
  { tag := 1, builderPresent := true, callbackPresent := true, resolveOk := true,
    buildResult := some (some ()), filterResult := some true,
    callbackResult := .stopPropagation }

/-- A registered pair whose callback throws an ordinary error. -/
def dispatchPairErr : EventPair :=
  { tag := 2, builderPresent := true, callbackPresent := true, resolveOk := true,
    buildResult := some (some ()), filterResult := some true,
    callbackResult := .err }

/-! ## Supporting lemmas -/

set_option maxRecDepth 16000

theorem xorBuffers_length : ∀ a b : List Nat, (xorBuffers a b).length = a.length
  | [], _ => rfl
  | _ :: as, [] => by simp [xorBuffers, xorBuffers_length as []]
  | _ :: as, _ :: bs => by simp [xorBuffers, xorBuffers_length as bs]

theorem xorBuffers_lt : ∀ a b : List Nat, ∀ x ∈ xorBuffers a b, x < 256
  | _ :: as, [], x, hx => by
    rcases hx with _ | ⟨_, hx⟩
    · exact Nat.mod_lt _ (by norm_num)
    · exact xorBuffers_lt as [] x hx
  | _ :: as, _ :: bs, x, hx => by
    rcases hx with _ | ⟨_, hx⟩
    · exact Nat.mod_lt _ (by norm_num)
    · exact xorBuffers_lt as bs x hx

theorem natXor_cancel_right (a b : Nat) : Nat.xor (Nat.xor a b) b = a :=
  Nat.xor_cancel_right b a

theorem natXor_lt_256 {a b : Nat} (ha : a < 256) (hb : b < 256) :
    Nat.xor a b < 256 := by
  have h256 : (256 : Nat) = 2 ^ 8 := by norm_num
  rw [h256] at ha hb ⊢
  exact Nat.xor_lt_two_pow ha hb

theorem xorBuffers_cancel : ∀ a b : List Nat, a.length = b.length →
    (∀ x ∈ a, x < 256) → (∀ x ∈ b, x < 256) →
    xorBuffers (xorBuffers a b) b = a
  | [], [], _, _, _ => rfl
  | a :: as, b :: bs, h, ha, hb => by
    have ha1 : a < 256 := ha a (by simp)
    have hb1 : b < 256 := hb b (by simp)
    simp only [xorBuffers]
    rw [Nat.mod_eq_of_lt (natXor_lt_256 ha1 hb1)]
    rw [natXor_cancel_right, Nat.mod_eq_of_lt ha1]
    rw [xorBuffers_cancel as bs (by simpa using h)
      (fun x hx => ha x (by simp [hx])) (fun x hx => hb x (by simp [hx]))]

theorem chunks16Aux_flatten : ∀ (fuel : Nat) (l : List Nat), l.length ≤ fuel →
    (chunks16Aux fuel l).flatten = l
  | _, [], _ => by cases ‹Nat› <;> simp [chunks16Aux]
  | 0, c :: cs, h => by simp at h
  | fuel + 1, c :: cs, h => by
    simp only [chunks16Aux, List.flatten_cons]
    rw [chunks16Aux_flatten fuel ((c :: cs).drop 16)
      (by simp only [List.length_drop, List.length_cons] at h ⊢; omega)]
    exact List.take_append_drop 16 (c :: cs)

theorem chunks16_flatten (l : List Nat) : (chunks16 l).flatten = l :=
  chunks16Aux_flatten l.length l (Nat.le_refl _)

theorem chunks16Aux_length16 : ∀ (fuel : Nat) (l : List Nat), l.length ≤ fuel →
    l.length % 16 = 0 → ∀ b ∈ chunks16Aux fuel l, b.length = 16
  | _, [], _, _ => by cases ‹Nat› <;> simp [chunks16Aux]
  | 0, c :: cs, h, _ => by simp at h
  | fuel + 1, c :: cs, h, hm => by
    intro b hb
    rcases hb with _ | ⟨_, hb⟩
    · simp only [List.length_take, List.length_cons]
      have : (c :: cs).length % 16 = 0 := hm
      simp only [List.length_cons] at this
      omega
    · exact chunks16Aux_length16 fuel ((c :: cs).drop 16)
        (by simp only [List.length_drop, List.length_cons] at h ⊢; omega)
        (by simp only [List.length_drop, List.length_cons] at hm ⊢; omega) b hb

theorem chunks16Aux_mem : ∀ (fuel : Nat) (l : List Nat) (b : List Nat),
    b ∈ chunks16Aux fuel l → ∀ x ∈ b, x ∈ l
  | 0, _, b, hb => by simp [chunks16Aux] at hb
  | _ + 1, [], b, hb => by simp [chunks16Aux] at hb
  | fuel + 1, c :: cs, b, hb => by
    rcases hb with _ | ⟨_, hb⟩
    · exact fun x hx => List.take_subset _ _ hx
    · exact fun x hx =>
        List.drop_subset 16 (c :: cs) (chunks16Aux_mem fuel _ b hb x hx)

theorem chunks16Aux_of_blocks : ∀ (fuel : Nat) (bs : List (List Nat)),
    (∀ b ∈ bs, b.length = 16) → bs.flatten.length ≤ fuel →
    chunks16Aux fuel bs.flatten = bs
  | fuel, [], _, _ => by cases fuel <;> simp [chunks16Aux]
  | fuel, b :: bs, hb, hf => by
    have hb16 : b.length = 16 := hb b (by simp)
    cases fuel with
    | zero =>
      exfalso
      simp only [List.flatten_cons, List.length_append, Nat.le_zero] at hf
      omega
    | succ fuel =>
      cases b with
      | nil => simp at hb16
      | cons x xs =>
        show chunks16Aux (fuel + 1) ((x :: xs) ++ bs.flatten) = (x :: xs) :: bs
        rw [List.cons_append]
        simp only [chunks16Aux]
        rw [← List.cons_append, List.take_left' hb16, List.drop_left' hb16]
        rw [chunks16Aux_of_blocks fuel bs (fun b h => hb b (by simp [h]))
          (by simp only [List.flatten_cons, List.length_append] at hf; omega)]

theorem flatten_length_of_blocks : ∀ bs : List (List Nat),
    (∀ b ∈ bs, b.length = 16) → bs.flatten.length = 16 * bs.length
  | [], _ => rfl
  | b :: bs, hb => by
    simp only [List.flatten_cons, List.length_append, List.length_cons]
    rw [hb b (by simp), flatten_length_of_blocks bs (fun b h => hb b (by simp [h]))]
    ring

theorem encryptIgeBlocks_len (C : BlockCipher)
    (hE : ∀ b : List Nat, b.length = 16 → (∀ x ∈ b, x < 256) →
      (C.encryptBlock b).length = 16 ∧ ∀ x ∈ C.encryptBlock b, x < 256) :
    ∀ (blocks : List (List Nat)) (prevC prevP : List Nat),
      (∀ b ∈ blocks, b.length = 16) →
      ∀ cb ∈ encryptIgeBlocks C blocks prevC prevP, cb.length = 16 := by
  intro blocks
  induction blocks with
  | nil => intro _ _ _ cb hcb; simp [encryptIgeBlocks] at hcb
  | cons pb rest ih =>
    intro prevC prevP hlen cb hcb
    simp only [encryptIgeBlocks] at hcb
    rcases List.mem_cons.mp hcb with rfl | hcb
    · rw [xorBuffers_length]
      exact (hE _ (by rw [xorBuffers_length]; exact hlen pb (by simp))
        (xorBuffers_lt _ _)).1
    · exact ih _ _ (fun b h => hlen b (by simp [h])) cb hcb

theorem decryptIgeBlocks_inv (C : BlockCipher)
    (hE : ∀ b : List Nat, b.length = 16 → (∀ x ∈ b, x < 256) →
      (C.encryptBlock b).length = 16 ∧ ∀ x ∈ C.encryptBlock b, x < 256)
    (hD : ∀ b : List Nat, b.length = 16 → (∀ x ∈ b, x < 256) →
      C.decryptBlock (C.encryptBlock b) = b) :
    ∀ (blocks : List (List Nat)) (prevC prevP : List Nat),
      (∀ b ∈ blocks, b.length = 16 ∧ ∀ x ∈ b, x < 256) →
      prevC.length = 16 → (∀ x ∈ prevC, x < 256) →
      prevP.length = 16 → (∀ x ∈ prevP, x < 256) →
      decryptIgeBlocks C (encryptIgeBlocks C blocks prevC prevP) prevC prevP
        = blocks := by
  intro blocks
  induction blocks with
  | nil => intros; rfl
  | cons pb rest ih =>
    intro prevC prevP hbs hCl hCb hPl hPb
    obtain ⟨hpb16, hpbb⟩ := hbs pb (by simp)
    have hx16 : (xorBuffers pb prevC).length = 16 := by
      rw [xorBuffers_length, hpb16]
    have hxb : ∀ x ∈ xorBuffers pb prevC, x < 256 := xorBuffers_lt pb prevC
    obtain ⟨hel, heb⟩ := hE (xorBuffers pb prevC) hx16 hxb
    have hcb16 :
        (xorBuffers (C.encryptBlock (xorBuffers pb prevC)) prevP).length = 16 := by
      rw [xorBuffers_length, hel]
    have hcbb := xorBuffers_lt (C.encryptBlock (xorBuffers pb prevC)) prevP
    have hstep1 :
        xorBuffers (xorBuffers (C.encryptBlock (xorBuffers pb prevC)) prevP) prevP
          = C.encryptBlock (xorBuffers pb prevC) :=
      xorBuffers_cancel _ prevP (by rw [hel, hPl]) heb hPb
    have hstep2 : C.decryptBlock (C.encryptBlock (xorBuffers pb prevC))
        = xorBuffers pb prevC := hD _ hx16 hxb
    have hstep3 : xorBuffers (xorBuffers pb prevC) prevC = pb :=
      xorBuffers_cancel pb prevC (by rw [hpb16, hCl]) hpbb hCb
    simp only [encryptIgeBlocks, decryptIgeBlocks]
    rw [hstep1, hstep2, hstep3]
    rw [ih _ _ (fun b h => hbs b (by simp [h])) hcb16 hcbb hpb16 hpbb]

theorem decryptIge_encryptIge_of_aligned (C : BlockCipher)
    (hE : ∀ b : List Nat, b.length = 16 → (∀ x ∈ b, x < 256) →
      (C.encryptBlock b).length = 16 ∧ ∀ x ∈ C.encryptBlock b, x < 256)
    (hD : ∀ b : List Nat, b.length = 16 → (∀ x ∈ b, x < 256) →
      C.decryptBlock (C.encryptBlock b) = b)
    (iv : List Nat) (rnd : Nat → List Nat) (q : List Nat)
    (hiv : iv.length = 32) (hivb : ∀ x ∈ iv, x < 256)
    (hq : q.length % 16 = 0) (hqb : ∀ x ∈ q, x < 256) :
    decryptIge C iv (encryptIge C iv rnd q) = some q := by
  have hq' : ¬ q.length % 16 ≠ 0 := by omega
  have henc : encryptIge C iv rnd q
      = (encryptIgeBlocks C (chunks16 q) (iv.take 16) ((iv.drop 16).take 16)).flatten := by
    simp only [encryptIge, if_neg hq']
  have hblen : ∀ b ∈ chunks16 q, b.length = 16 :=
    chunks16Aux_length16 q.length q (Nat.le_refl _) hq
  have hbbytes : ∀ b ∈ chunks16 q, ∀ x ∈ b, x < 256 :=
    fun b hb x hx => hqb x (chunks16Aux_mem q.length q b hb x hx)
  have hencb :
      ∀ cb ∈ encryptIgeBlocks C (chunks16 q) (iv.take 16) ((iv.drop 16).take 16),
        cb.length = 16 :=
    encryptIgeBlocks_len C hE _ _ _ hblen
  have hel :=
    flatten_length_of_blocks
      (encryptIgeBlocks C (chunks16 q) (iv.take 16) ((iv.drop 16).take 16)) hencb
  have hiv1l : (iv.take 16).length = 16 := by
    simp [List.length_take, hiv]
  have hiv2l : ((iv.drop 16).take 16).length = 16 := by
    simp [List.length_take, List.length_drop, hiv]
  have hiv1b : ∀ x ∈ iv.take 16, x < 256 :=
    fun x hx => hivb x (List.take_subset _ _ hx)
  have hiv2b : ∀ x ∈ (iv.drop 16).take 16, x < 256 :=
    fun x hx => hivb x (List.drop_subset _ _ (List.take_subset _ _ hx))
  have houter :
      chunks16 ((encryptIgeBlocks C (chunks16 q) (iv.take 16)
          ((iv.drop 16).take 16)).flatten)
        = encryptIgeBlocks C (chunks16 q) (iv.take 16) ((iv.drop 16).take 16) :=
    chunks16Aux_of_blocks _ _ hencb (Nat.le_refl _)
  rw [henc]
  unfold decryptIge
  rw [if_neg (by rw [hel]; omega)]
  rw [houter]
  show some ((decryptIgeBlocks C
      (encryptIgeBlocks C (chunks16 q) (iv.take 16) ((iv.drop 16).take 16))
      (iv.take 16) ((iv.drop 16).take 16)).flatten) = some q
  rw [decryptIgeBlocks_inv C hE hD _ _ _ (fun b hb => ⟨hblen b hb, hbbytes b hb⟩)
    hiv1l hiv1b hiv2l hiv2b]
  rw [chunks16_flatten]

/-! ## Claims about the IGE layer -/

/-- C2: for every 32-byte key (abstracted into the raw block cipher's maps),
every 32-byte IV and every plaintext byte buffer, `decryptIge (encryptIge p)`
under the same key and IV recovers the original plaintext as a prefix after
discarding the random padding tail appended when the plaintext length is not
a multiple of 16; for block-aligned plaintext the round-trip is exact
equality. -/
theorem c2_ige_roundtrip (C : BlockCipher) (iv : List Nat) (rnd : Nat → List Nat)
    (p : List Nat)
    (hE : ∀ b : List Nat, b.length = 16 → (∀ x ∈ b, x < 256) →
      (C.encryptBlock b).length = 16 ∧ ∀ x ∈ C.encryptBlock b, x < 256)
    (hD : ∀ b : List Nat, b.length = 16 → (∀ x ∈ b, x < 256) →
      C.decryptBlock (C.encryptBlock b) = b)
    (hiv : iv.length = 32) (hivb : ∀ x ∈ iv, x < 256)
    (hp : ∀ x ∈ p, x < 256)
    (hrnd : ∀ k, (rnd k).length = k ∧ ∀ x ∈ rnd k, x < 256) :
    (decryptIge C iv (encryptIge C iv rnd p)).map (fun l => l.take p.length)
        = some p
    ∧ (p.length % 16 = 0 → decryptIge C iv (encryptIge C iv rnd p) = some p) := by
  by_cases hal : p.length % 16 = 0
  · have h := decryptIge_encryptIge_of_aligned C hE hD iv rnd p hiv hivb hal hp
    exact ⟨by rw [h]; simp, fun _ => h⟩
  · have hpadb : ∀ x ∈ p ++ rnd (16 - p.length % 16), x < 256 := by
      intro x hx
      rcases List.mem_append.mp hx with h | h
      · exact hp x h
      · exact (hrnd _).2 x h
    have hplen : (p ++ rnd (16 - p.length % 16)).length % 16 = 0 := by
      rw [List.length_append, (hrnd _).1]; omega
    have henc_eq : encryptIge C iv rnd p
        = encryptIge C iv rnd (p ++ rnd (16 - p.length % 16)) := by
      simp only [encryptIge]
      rw [if_pos (by omega : p.length % 16 ≠ 0), if_neg (by omega)]
    have h := decryptIge_encryptIge_of_aligned C hE hD iv rnd
      (p ++ rnd (16 - p.length % 16)) hiv hivb hplen hpadb
    constructor
    · rw [henc_eq, h]
      simp only [Option.map_some']
      rw [List.take_left' rfl]
    · intro hc; exact absurd hc hal

/-- C2 witness: the identity block cipher, a concrete 32-byte IV, a
deterministic padding source, and the 3-byte plaintext `[1, 2, 3]`. -/
theorem c2_ige_roundtrip_witness :
    (decryptIge idBlockCipher sampleIv
        (encryptIge idBlockCipher sampleIv zeroRnd [1, 2, 3])).map
          (fun l => l.take [1, 2, 3].length)
        = some [1, 2, 3]
    ∧ ([1, 2, 3].length % 16 = 0 →
        decryptIge idBlockCipher sampleIv
          (encryptIge idBlockCipher sampleIv zeroRnd [1, 2, 3]) = some [1, 2, 3]) :=
  c2_ige_roundtrip idBlockCipher sampleIv zeroRnd [1, 2, 3]
    (fun _ hb hx => ⟨hb, hx⟩)
    (fun _ _ _ => rfl)
    (by decide)
    (by decide)
    (by decide)
    (fun k => ⟨List.length_replicate k 0, by
      intro x hx
      rw [List.eq_of_mem_replicate hx]
      norm_num⟩)

/-- C4: `decryptIge` throws its framing error exactly when the ciphertext
length is not a multiple of 16, and returns a plaintext for every
block-aligned ciphertext. -/
theorem c4_decrypt_framing (C : BlockCipher) (iv ct : List Nat) :
    decryptIge C iv ct = none ↔ ct.length % 16 ≠ 0 := by
  unfold decryptIge
  split
  · simp_all
  · simp_all

/-! ## Claims about cipher construction and the sync engine -/

/-- C9 counterexample: `"aes-256-ecb"` — the lowercase spelling of the
AES-256-ECB algorithm, the one the repository itself hands to `node:crypto`
in `IGE.ts` — denotes ECB yet is not refused: with a 32-byte key and an
empty IV, an input node accepts, both construction entry points return a
cipher instead of throwing, while the uppercase spelling is refused before
node is consulted. -/
theorem c9_counterexample :
    (createCipher nodeLowercaseEcbRun "aes-256-ecb"
        (List.replicate 32 0) []).isSome = true
    ∧ (createDecipher nodeLowercaseEcbRun "aes-256-ecb"
        (List.replicate 32 0) []).isSome = true
    ∧ createCipher nodeLowercaseEcbRun "AES-256-ECB"
        (List.replicate 32 0) [] = none
    ∧ createDecipher nodeLowercaseEcbRun "AES-256-ECB"
        (List.replicate 32 0) [] = none := by decide

/-- C9 amended: the entry points' own fail-fast refusal fires exactly for
algorithm strings containing the uppercase substring `"ECB"`: for those,
construction throws no matter how the wrapped `node:crypto` calls behave;
for every other algorithm string the guard does not fire, and a cipher is
returned precisely when both wrapped node calls succeed — node's own errors
for unknown algorithms or invalid key/IV lengths propagate. -/
theorem c9_ecb_guard (algorithm : String) (key iv : List Nat) :
    ((∀ F : NodeCryptoFactory, createCipher F algorithm key iv = none)
      ↔ strContains algorithm "ECB" = true)
    ∧ ((∀ F : NodeCryptoFactory, createDecipher F algorithm key iv = none)
      ↔ strContains algorithm "ECB" = true)
    ∧ (∀ F : NodeCryptoFactory,
        (createCipher F algorithm key iv).isSome = true →
          strContains algorithm "ECB" = false
          ∧ (F.createCipheriv algorithm key iv).isSome = true
          ∧ (F.createDecipheriv algorithm key iv).isSome = true)
    ∧ (∀ F : NodeCryptoFactory,
        (createDecipher F algorithm key iv).isSome = true →
          strContains algorithm "ECB" = false
          ∧ (F.createCipheriv algorithm key iv).isSome = true
          ∧ (F.createDecipheriv algorithm key iv).isSome = true) := by
  have hsome : ∀ F : NodeCryptoFactory,
      (if strContains algorithm "ECB" then none else newCTR F key iv algorithm)
          = (none : Option CryptoShimCTR) →
        strContains algorithm "ECB" = false →
        newCTR F key iv algorithm = none := by
    intro F h hf
    rwa [hf, if_neg (by simp)] at h
  constructor
  · constructor
    · intro hall
      by_contra hecb
      have hf : strContains algorithm "ECB" = false := by
        cases h : strContains algorithm "ECB"
        · rfl
        · exact absurd h hecb
      have := hsome alwaysAcceptNode (hall alwaysAcceptNode) hf
      simp [newCTR, alwaysAcceptNode] at this
    · intro h F
      unfold createCipher
      rw [if_pos (by simp [h])]
  refine ⟨?_, ?_, ?_⟩
  · constructor
    · intro hall
      by_contra hecb
      have hf : strContains algorithm "ECB" = false := by
        cases h : strContains algorithm "ECB"
        · rfl
        · exact absurd h hecb
      have := hsome alwaysAcceptNode (hall alwaysAcceptNode) hf
      simp [newCTR, alwaysAcceptNode] at this
    · intro h F
      unfold createDecipher
      rw [if_pos (by simp [h])]
  · intro F h
    unfold createCipher at h
    by_cases hecb : strContains algorithm "ECB" = true
    · rw [if_pos (by simp [hecb])] at h
      simp at h
    · have hf : strContains algorithm "ECB" = false := by
        cases hh : strContains algorithm "ECB"
        · rfl
        · exact absurd hh hecb
      rw [if_neg (by simp [hf])] at h
      refine ⟨hf, ?_, ?_⟩ <;>
        · unfold newCTR at h
          cases h1 : F.createCipheriv algorithm key iv <;>
            cases h2 : F.createDecipheriv algorithm key iv <;>
            simp_all
  · intro F h
    unfold createDecipher at h
    by_cases hecb : strContains algorithm "ECB" = true
    · rw [if_pos (by simp [hecb])] at h
      simp at h
    · have hf : strContains algorithm "ECB" = false := by
        cases hh : strContains algorithm "ECB"
        · rfl
        · exact absurd hh hecb
      rw [if_neg (by simp [hf])] at h
      refine ⟨hf, ?_, ?_⟩ <;>
        · unfold newCTR at h
          cases h1 : F.createCipheriv algorithm key iv <;>
            cases h2 : F.createDecipheriv algorithm key iv <;>
            simp_all

/-- C9 witness: `"AES-256-CTR"` with a 32-byte key and 16-byte counter
block under an accepting node run yields a cipher, so by the theorem the
guard did not fire and both node calls succeeded. -/
theorem c9_ecb_guard_witness :
    strContains "AES-256-CTR" "ECB" = false
    ∧ (alwaysAcceptNode.createCipheriv "AES-256-CTR" sampleKey sampleCtrIv).isSome
        = true
    ∧ (alwaysAcceptNode.createDecipheriv "AES-256-CTR" sampleKey sampleCtrIv).isSome
        = true :=
  (c9_ecb_guard "AES-256-CTR" sampleKey sampleCtrIv).2.2.1 alwaysAcceptNode
    (by decide)

/-- C7: on a `DifferenceTooLong` reply, `catchUp` sets the state's `pts` to
the reply's `pts`, leaves `qts`, `date` and `seq` unchanged, fans out no
message or update, surfaces a warning, and stops the fetch loop (the
remaining replies are never requested). -/
theorem c7_too_long (s : UpdateState) (p : Int) (rest : List TypeDifference) :
    catchUpLoop s (.differenceTooLong p :: rest)
      = ({ pts := p, qts := s.qts, date := s.date, seq := s.seq },
         [SyncEffect.warnedTooLong], rest) := rfl

/-- C3 counterexample: with the reply sequence Empty, Slice, Slice, Full
from state (1,2,3,4), `catchUp` stops at the `Empty` reply: the terminal
state is (1,2,50,60) — not the Full reply's embedded state (9,9,9,9) — and
no message or update of the slices is fanned out (the trailing replies are
never requested). -/
theorem c3_counterexample :
    catchUpLoop cexState
        [.differenceEmpty 50 60, cexSliceA, cexSliceB, cexFull]
      = ({ pts := 1, qts := 2, date := 50, seq := 60 }, [],
         [cexSliceA, cexSliceB, cexFull])
    ∧ ({ pts := 1, qts := 2, date := 50, seq := 60 } : UpdateState)
      ≠ { pts := 9, qts := 9, date := 9, seq := 9 } := by decide

/-- C3 amended: an `Empty` reply terminates catch-up immediately, adopting
only its `date` and `seq`; when `catchUp` receives Slice, Slice, Full (in
that order), the terminal state equals the Full reply's embedded new state
and every message and update carried by each reply is fanned out exactly
once, in order (each reply contributing exactly its `_processDifference`
effects). -/
theorem c3_catchup_slices_full (s is1 is2 fs : UpdateState)
    (nm1 nm2 nmf : List DiffMessage) (ou1 ou2 ouf : List UpdateObj)
    (us1 us2 usf ch1 ch2 chf : List Entity) (rest : List TypeDifference)
    (d q : Int) :
    catchUpLoop s
        (.differenceSlice nm1 ou1 us1 ch1 is1
          :: .differenceSlice nm2 ou2 us2 ch2 is2
          :: .difference nmf ouf usf chf fs :: rest)
      = (fs,
         _processDifference (.differenceSlice nm1 ou1 us1 ch1 is1) nm1 ou1 us1 ch1
           ++ (_processDifference (.differenceSlice nm2 ou2 us2 ch2 is2) nm2 ou2 us2 ch2
             ++ _processDifference (.difference nmf ouf usf chf fs) nmf ouf usf chf),
         rest)
    ∧ catchUpLoop s (.differenceEmpty d q :: rest)
      = ({ pts := s.pts, qts := s.qts, date := d, seq := q }, [], rest) :=
  ⟨rfl, rfl⟩

/-- C10: an integer signal outside `{-1, 0, 1}` is not wrapped into a
synthetic connection-state update; it falls through the regular path: it is
passed to the entity cache and the session, then dispatched as-is as a
single update with no entity context. -/
theorem c10_nonsignal_number (n : Int) (h : ¬(n = -1 ∨ n = 0 ∨ n = 1)) :
    _handleUpdate (.num n)
      = [HandleEffect.entityCacheAdd (.num n),
         HandleEffect.sessionProcessEntities (.num n),
         HandleEffect.dispatched (.rawNum n) none []] := by
  simp only [_handleUpdate]
  rw [if_neg h]
  rfl

/-- C10 witness: the signal `5`. -/
theorem c10_nonsignal_number_witness :
    _handleUpdate (.num 5)
      = [HandleEffect.entityCacheAdd (.num 5),
         HandleEffect.sessionProcessEntities (.num 5),
         HandleEffect.dispatched (.rawNum 5) none []] :=
  c10_nonsignal_number 5 (by decide)

theorem dispatch_cons_no_stop (hasEH : Bool) (p : EventPair)
    (rest : List EventPair) (h : stopsRound p = false) :
    _dispatchUpdate hasEH true (p :: rest)
      = pairEffects hasEH p ++ _dispatchUpdate hasEH true rest := by
  rcases p with ⟨t, bp, cp, ro, br, fr, cr⟩
  simp only [stopsRound, willRun] at h
  cases bp <;> cases cp <;> cases ro <;>
    rcases br with _ | (_ | _) <;>
    rcases fr with _ | bf <;>
    (try cases bf) <;>
    cases cr <;>
    simp_all [_dispatchUpdate, pairEffects]

theorem dispatch_append_no_stop (hasEH : Bool) (pre rest : List EventPair)
    (h : ∀ q ∈ pre, stopsRound q = false) :
    _dispatchUpdate hasEH true (pre ++ rest)
      = (pre.map (pairEffects hasEH)).flatten ++ _dispatchUpdate hasEH true rest := by
  induction pre with
  | nil => simp
  | cons q pre ih =>
    simp only [List.cons_append, List.map_cons, List.flatten_cons,
      List.append_assoc]
    rw [dispatch_cons_no_stop hasEH q _ (h q (by simp))]
    rw [ih (fun r hr => h r (by simp [hr]))]

theorem dispatch_cons_stop (hasEH : Bool) (p : EventPair)
    (rest : List EventPair) (h1 : willRun p = true)
    (h2 : p.callbackResult = CallbackResult.stopPropagation) :
    _dispatchUpdate hasEH true (p :: rest)
      = [DispatchEffect.callbackInvoked p.tag] := by
  rcases p with ⟨t, bp, cp, ro, br, fr, cr⟩
  simp only [willRun] at h1
  simp only at h2
  subst h2
  cases bp <;> cases cp <;> cases ro <;>
    rcases br with _ | (_ | _) <;>
    rcases fr with _ | bf <;>
    (try cases bf) <;>
    simp_all [_dispatchUpdate]

theorem dispatch_cons_err (hasEH : Bool) (p : EventPair)
    (rest : List EventPair) (h1 : willRun p = true)
    (h2 : p.callbackResult = CallbackResult.err) :
    _dispatchUpdate hasEH true (p :: rest)
      = DispatchEffect.callbackInvoked p.tag
          :: ((if hasEH then [DispatchEffect.errorHandled p.tag] else [])
            ++ DispatchEffect.handlerErrorLogged p.tag
              :: _dispatchUpdate hasEH true rest) := by
  rcases p with ⟨t, bp, cp, ro, br, fr, cr⟩
  simp only [willRun] at h1
  simp only at h2
  subst h2
  cases bp <;> cases cp <;> cases ro <;>
    rcases br with _ | (_ | _) <;>
    rcases fr with _ | bf <;>
    (try cases bf) <;>
    simp_all [_dispatchUpdate]

/-! ## Claim about handler dispatch -/

/-- C8: during one dispatch round over the registered pairs in registration
order (none of the earlier pairs stopping the round), a callback that throws
`StopPropagation` prevents every later-registered pair from being invoked
for that event, whereas a callback that throws any other error is routed to
the optional global error handler and logged, and the remaining pairs are
dispatched exactly as their own round — every remaining registered pair
still runs. Dispatch is a pure function of the registered list, so a later
event with the same registrations runs all pairs again. -/
theorem c8_dispatch (hasEH : Bool) (pre suf : List EventPair) (p : EventPair)
    (hpre : ∀ q ∈ pre, stopsRound q = false) (hp : willRun p = true) :
    (p.callbackResult = CallbackResult.stopPropagation →
      _dispatchUpdate hasEH true (pre ++ p :: suf)
        = (pre.map (pairEffects hasEH)).flatten
            ++ [DispatchEffect.callbackInvoked p.tag])
    ∧ (p.callbackResult = CallbackResult.err →
      _dispatchUpdate hasEH true (pre ++ p :: suf)
        = (pre.map (pairEffects hasEH)).flatten
            ++ (DispatchEffect.callbackInvoked p.tag
              :: ((if hasEH then [DispatchEffect.errorHandled p.tag] else [])
                ++ DispatchEffect.handlerErrorLogged p.tag
                  :: _dispatchUpdate hasEH true suf))) := by
  constructor
  · intro h2
    rw [dispatch_append_no_stop hasEH pre (p :: suf) hpre,
      dispatch_cons_stop hasEH p suf hp h2]
  · intro h2
    rw [dispatch_append_no_stop hasEH pre (p :: suf) hpre,
      dispatch_cons_err hasEH p suf hp h2]

/-- C8 witness: with a normal pair registered first, a stopping pair second
and an error-throwing pair third, the round invokes the first two callbacks
and never reaches the third. -/
theorem c8_dispatch_witness :
    _dispatchUpdate true true ([dispatchPairOk] ++ dispatchPairStop :: [dispatchPairErr])
      = ([dispatchPairOk].map (pairEffects true)).flatten
          ++ [DispatchEffect.callbackInvoked dispatchPairStop.tag] :=
  (c8_dispatch true [dispatchPairOk] [dispatchPairErr] dispatchPairStop
    (by decide) (by decide)).1 rfl

theorem setKey_mem_keys : ∀ (l : List (String × ArgConfig)) (k : String)
    (v : ArgConfig), k ∈ (setKey l k v).map Prod.fst
  | [], k, v => by simp [setKey]
  | (k', v') :: rest, k, v => by
    simp only [setKey]
    split
    · simp
    · simp only [List.map_cons, List.mem_cons]
      exact Or.inr (setKey_mem_keys rest k v)

theorem setKey_keys_mono : ∀ (l : List (String × ArgConfig)) (k k' : String)
    (v : ArgConfig), k ∈ l.map Prod.fst → k ∈ (setKey l k' v).map Prod.fst
  | [], _, _, _, h => by simp at h
  | (k0, v0) :: rest, k, k', v, h => by
    simp only [List.map_cons, List.mem_cons] at h
    simp only [setKey]
    split
    · rename_i heq
      rcases h with rfl | h
      · simp [heq]
      · simp [h]
    · rcases h with rfl | h
      · simp
      · simp only [List.map_cons, List.mem_cons]
        exact Or.inr (setKey_keys_mono rest k k' v h)

theorem argsFold_keys_mono : ∀ (args : List (Option Unit × String × String))
    (init : List (String × ArgConfig)) (k : String),
    k ∈ init.map Prod.fst → k ∈ (args.foldl argsConfigStep init).map Prod.fst
  | [], _, _, h => h
  | e :: rest, init, k, h => by
    simp only [List.foldl_cons]
    apply argsFold_keys_mono rest
    rcases e with ⟨b, n, t⟩
    cases b with
    | none => simpa [argsConfigStep] using setKey_keys_mono init k _ _ h
    | some u => simpa [argsConfigStep] using h

theorem argsFold_key_mem : ∀ (args : List (Option Unit × String × String))
    (init : List (String × ArgConfig)) (n t : String),
    ((none : Option Unit), n, t) ∈ args →
    variableSnakeToCamelCase n ∈ (args.foldl argsConfigStep init).map Prod.fst
  | [], _, _, _, h => by simp at h
  | e :: rest, init, n, t, h => by
    simp only [List.foldl_cons]
    rcases List.mem_cons.mp h with rfl | h
    · apply argsFold_keys_mono rest
      simpa [argsConfigStep] using
        setKey_mem_keys init (variableSnakeToCamelCase n) (buildArgConfig n t)
    · exact argsFold_key_mem rest _ n t h

/-! ## Claims about the TL-schema parser -/

/-- C1 counterexample: parsing `foo field:int = Bar;` does not assign
`CRC32("foo field = Bar")`: the argument map is still empty when the id is
derived, so the code hashes `"foo = Bar"` instead, both through `fromLine`
and through `parseTl`. -/
theorem c1_counterexample :
    (fromLine "foo field:int = Bar;" false).map TlDefinition.constructorId
        = some (crc32OfString "foo = Bar")
    ∧ (parseTl "foo field:int = Bar;").map
          (fun l => l.map TlDefinition.constructorId)
        = some [crc32OfString "foo = Bar"]
    ∧ (fromLine "foo field:int = Bar;" false).map TlDefinition.constructorId
        ≠ some (crc32OfString "foo field = Bar") := by decide

/-- C1 amended: for every schema definition line lacking an explicit hex
constructor id, the derived id equals CRC32 of the normalized canonical
string built as the name, `" = "`, and the result type — without the field
names, because the argument map is populated only after the id has been
derived. -/
theorem c1_derived_id (line nm result : String) (isF : Bool)
    (h : matchMainLine line = some (nm, none, result)) :
    (fromLine line isF).map TlDefinition.constructorId
      = some (crc32OfString (normalizeRepr (nm ++ " = " ++ result))) := by
  unfold fromLine
  rw [h]
  simp only [Option.map_some']
  show some ((fromLineCore line nm none result isF).constructorId) = _
  simp [fromLineCore, String.append_empty]

/-- C1 witness: the line `foo field:int = Bar;`. -/
theorem c1_derived_id_witness :
    (fromLine "foo field:int = Bar;" false).map TlDefinition.constructorId
      = some (crc32OfString (normalizeRepr ("foo" ++ " = " ++ "Bar"))) :=
  c1_derived_id "foo field:int = Bar;" "foo" "Bar" false (by decide)

/-- C5 counterexample: the line `foo#0 = Bar;` carries the explicit hex id
`0`, but the produced definition's id is the derived `CRC32("foo = Bar")`,
not `0`: the `!constructorId` falsy check re-derives an explicit zero id. -/
theorem c5_counterexample :
    (fromLine "foo#0 = Bar;" false).map TlDefinition.constructorId
        = some (crc32OfString "foo = Bar")
    ∧ (fromLine "foo#0 = Bar;" false).map TlDefinition.constructorId
        ≠ some 0 := by decide

/-- C5 amended: for every schema definition line carrying an explicit
hexadecimal constructor id whose value is nonzero, the produced definition
has exactly that id, unchanged. -/
theorem c5_explicit_id (line nm hx result : String) (isF : Bool) (v : Nat)
    (h : matchMainLine line = some (nm, some hx, result))
    (hv : parseHexLeading hx = some v) (hnz : v ≠ 0) :
    (fromLine line isF).map TlDefinition.constructorId = some v := by
  unfold fromLine
  rw [h]
  simp only [Option.map_some']
  show some ((fromLineCore line nm (some hx) result isF).constructorId) = _
  simp [fromLineCore, hv, hnz]

/-- C5 witness: the line `foo#1f = Bar;` keeps its explicit id `0x1f`. -/
theorem c5_explicit_id_witness :
    (fromLine "foo#1f = Bar;" false).map TlDefinition.constructorId = some 31 :=
  c5_explicit_id "foo#1f = Bar;" "foo" "1f" "Bar" false 31 (by decide) (by decide)
    (by decide)

/-- C6 counterexample: parsing `foo self:true = Bar;` keys the field's
argument configuration under `"self"`, not under the renamed form
`"is_self"`. -/
theorem c6_counterexample :
    (fromLine "foo self:true = Bar;" false).map
        (fun d => d.argsConfig.map Prod.fst) = some ["self"]
    ∧ (fromLine "foo self:true = Bar;" false).map
        (fun d => d.argsConfig.map Prod.fst) ≠ some ["is_self"] := by decide

/-- C6 amended: the `self` → `is_self` rename inside `buildArgConfig` has no
observable effect — the produced configuration does not depend on the
declared name at all — and the argument map keys a field declared `self`
under `variableSnakeToCamelCase "self" = "self"`, not under `"is_self"`. -/
theorem c6_self_key (line nm result ty : String) (hexId : Option String)
    (isF : Bool)
    (h : matchMainLine line = some (nm, hexId, result))
    (ha : ((none : Option Unit), "self", ty) ∈ findAllArgs line) :
    (∀ n n' t, buildArgConfig n t = buildArgConfig n' t)
    ∧ variableSnakeToCamelCase "self" = "self"
    ∧ ∃ d, fromLine line isF = some d ∧ "self" ∈ d.argsConfig.map Prod.fst := by
  refine ⟨fun n n' t => rfl, by decide, ?_⟩
  refine ⟨fromLineCore line nm hexId result isF, by unfold fromLine; rw [h]; rfl, ?_⟩
  have hm := argsFold_key_mem (findAllArgs line) [] "self" ty ha
  rw [show variableSnakeToCamelCase "self" = "self" from by decide] at hm
  exact hm

/-- C6 witness: the line `foo self:true = Bar;`. -/
theorem c6_self_key_witness :
    (∀ n n' t, buildArgConfig n t = buildArgConfig n' t)
    ∧ variableSnakeToCamelCase "self" = "self"
    ∧ ∃ d, fromLine "foo self:true = Bar;" false = some d
        ∧ "self" ∈ d.argsConfig.map Prod.fst :=
  c6_self_key "foo self:true = Bar;" "foo" "Bar" "true" none false (by decide)
    (by decide)
